import Mathlib

/-!
Verification of the markdown-to-Notion-block transducer and its batch
publishing protocol, shallowly embedded from src/make_notion_block.py.

Python strings are modelled as lists of characters; the Python string
operations used by the source (startswith, slicing, strip, split on a
newline, join with a newline) are translated below. The network call
issued by requests.patch is abstracted as an oracle mapping the index of
the request to its outcome (a status code, or a raised exception).
-/

set_option autoImplicit false
set_option maxRecDepth 8192

universe u

/-- A Python string, as the list of its characters. -/
def pyStr (s : String) : List Char := s.data

/-- Python line.startswith(p): p is a leading substring of the line. -/
def pyStartsWith : List Char → List Char → Bool
  | [], _ => true
  | _ :: _, [] => false
  | p :: ps, c :: cs => p == c && pyStartsWith ps cs

/-- Python s.strip(): remove leading and trailing whitespace. -/
def pyStrip (s : List Char) : List Char :=
  ((s.dropWhile Char.isWhitespace).reverse.dropWhile Char.isWhitespace).reverse

/-- Python s.split of a newline: the maximal newline-free segments,
one more segment than there are newlines (an empty input gives one
empty segment, as in Python). -/
def splitNl : List Char → List (List Char)
  | [] => [[]]
  | c :: rest =>
    if c = '\n' then [] :: splitNl rest
    else
      match splitNl rest with
      | [] => [[c]]
      | l :: ls => (c :: l) :: ls

/-- Python newline.join: interleave a newline between the segments. -/
def joinNl : List (List Char) → List Char
  | [] => []
  | [l] => l
  | l :: ls => l ++ '\n' :: joinNl ls

/-- The kind of block a markdown line is classified as (spec section 3). -/
inductive BlockKind where
  | heading1
  | heading2
  | heading3
  | bulletItem
  | numberedItem
  | paragraph
deriving DecidableEq

/-- One item of a rich_text array. The source always emits
type "text" with a nested text.content payload; the payload
is flattened into the content field here. -/
structure RichTextItem where
  type : String
  content : List Char
deriving DecidableEq

/-- The wire object one block becomes. In the source the payload
dictionary is stored under a key equal to the type tag; here the
payload (its rich_text array) is the richText field. -/
structure NotionBlock where
  object : String
  type : String
  richText : List RichTextItem
deriving DecidableEq

/-- _create_heading_1_block (src/make_notion_block.py lines 93-101). -/
def createHeading1Block (text : List Char) : NotionBlock :=
  { object := "block", type := "heading_1",
    richText := [{ type := "text", content := pyStrip text }] }

/-- _create_heading_2_block (lines 103-111). -/
def createHeading2Block (text : List Char) : NotionBlock :=
  { object := "block", type := "heading_2",
    richText := [{ type := "text", content := pyStrip text }] }

/-- _create_heading_3_block (lines 113-121). -/
def createHeading3Block (text : List Char) : NotionBlock :=
  { object := "block", type := "heading_3",
    richText := [{ type := "text", content := pyStrip text }] }

/-- _create_bullet_list_block (lines 123-131). -/
def createBulletListBlock (text : List Char) : NotionBlock :=
  { object := "block", type := "bulleted_list_item",
    richText := [{ type := "text", content := pyStrip text }] }

/-- _create_numbered_list_block (lines 133-141). -/
def createNumberedListBlock (text : List Char) : NotionBlock :=
  { object := "block", type := "numbered_list_item",
    richText := [{ type := "text", content := pyStrip text }] }

/-- _create_paragraph_block (lines 143-151). -/
def createParagraphBlock (text : List Char) : NotionBlock :=
  { object := "block", type := "paragraph",
    richText := [{ type := "text", content := pyStrip text }] }

/-- The dispatch on line prefixes in _convert_section_to_blocks
(lines 78-89), as the pair of the chosen kind and the argument the
matching block creator receives. The guards are in the exact order of
the source: "# " first, then "## ", "### ", "- ", "1. ", else paragraph. -/
def classify (line : List Char) : BlockKind × List Char :=
  if pyStartsWith (pyStr "# ") line then (BlockKind.heading1, line.drop 2)
  else if pyStartsWith (pyStr "## ") line then (BlockKind.heading2, line.drop 3)
  else if pyStartsWith (pyStr "### ") line then (BlockKind.heading3, line.drop 4)
  else if pyStartsWith (pyStr "- ") line then (BlockKind.bulletItem, line.drop 2)
  else if pyStartsWith (pyStr "1. ") line then (BlockKind.numberedItem, line.drop 3)
  else (BlockKind.paragraph, line)

/-- The block creator chosen for each kind, per the same dispatch. -/
def mkBlockOfKind : BlockKind → List Char → NotionBlock
  | BlockKind.heading1, t => createHeading1Block t
  | BlockKind.heading2, t => createHeading2Block t
  | BlockKind.heading3, t => createHeading3Block t
  | BlockKind.bulletItem, t => createBulletListBlock t
  | BlockKind.numberedItem, t => createNumberedListBlock t
  | BlockKind.paragraph, t => createParagraphBlock t

/-- The block built from one non-blank line: the composition of the
prefix dispatch and the chosen creator, exactly the body of the loop in
_convert_section_to_blocks (lines 78-89). -/
def buildBlockForLine (line : List Char) : NotionBlock :=
  mkBlockOfKind (classify line).1 (classify line).2

/-- The wire type tag the specification prescribes for each block kind
(spec section 6). -/
def tagOfKind : BlockKind → String
  | BlockKind.heading1 => "heading_1"
  | BlockKind.heading2 => "heading_2"
  | BlockKind.heading3 => "heading_3"
  | BlockKind.bulletItem => "bulleted_list_item"
  | BlockKind.numberedItem => "numbered_list_item"
  | BlockKind.paragraph => "paragraph"

/-- The per-line loop of _convert_section_to_blocks (lines 74-91):
skip a line that is blank after stripping, otherwise append the block
built from it. -/
def convertLines : List (List Char) → List NotionBlock
  | [] => []
  | line :: rest =>
    if pyStrip line = [] then convertLines rest
    else buildBlockForLine line :: convertLines rest

/-- _convert_section_to_blocks (lines 69-91): split the section at
newlines and run the per-line loop. -/
def convertSectionToBlocks (sec : List Char) : List NotionBlock :=
  convertLines (splitNl sec)

/-- The loop of _split_into_sections (lines 53-67): a line starting
with a hash while the buffer is non-empty flushes the buffer (joined
with newlines) as a completed section; every line is appended to the
buffer; at the end a non-empty buffer is flushed. -/
def splitIntoSectionsLoop : List (List Char) → List (List Char) → List (List Char)
  | [], cur => if cur.isEmpty then [] else [joinNl cur]
  | line :: rest, cur =>
    if pyStartsWith (pyStr "#") line && !cur.isEmpty then
      joinNl cur :: splitIntoSectionsLoop rest [line]
    else
      splitIntoSectionsLoop rest (cur ++ [line])

/-- _split_into_sections (lines 53-67). -/
def splitIntoSections (doc : List Char) : List (List Char) :=
  splitIntoSectionsLoop (splitNl doc) []

/-- The outcome of one requests.patch call: a response with a status
code, or a raised transport exception. -/
inductive NetResponse where
  | status (code : Nat)
  | raised (msg : String)
deriving DecidableEq

/-- The network oracle: the outcome of the i-th append request of one
publish call. -/
def NetOracle : Type := Nat → NetResponse

/-- Slicing blocks[i : i + 100] over range(0, len(blocks), 100)
(line 159-160), phrased with explicit fuel so that it is structural:
the fuel is at least the length of the list, and each step emits the
first hundred elements and recurses on the rest. -/
def chunksGo {α : Type u} : Nat → List α → List (List α)
  | _, [] => []
  | 0, _ :: _ => []
  | fuel + 1, a :: rest => (a :: rest).take 100 :: chunksGo fuel ((a :: rest).drop 100)

/-- The consecutive chunks of at most 100 blocks the publisher sends. -/
def chunksOf100 {α : Type u} (l : List α) : List (List α) :=
  chunksGo l.length l

/-- The loop body of _append_blocks_to_page (lines 159-169), before
its surrounding try/except: issue the requests in order; a raised
exception propagates, a non-200 status returns false, exhausting the
chunks returns true. The second component records the chunks whose
requests were issued. -/
def appendLoop {α : Type u} (net : NetOracle) : Nat → List (List α) → Except String Bool × List (List α)
  | _, [] => (Except.ok true, [])
  | i, c :: rest =>
    match net i with
    | NetResponse.raised msg => (Except.error msg, [c])
    | NetResponse.status code =>
      if code ≠ 200 then (Except.ok false, [c])
      else
        ((appendLoop net (i + 1) rest).1, c :: (appendLoop net (i + 1) rest).2)

/-- The effect of a try/except returning false on error: a normally
returned boolean passes through, a raised exception becomes false. -/
def runPublish : Except String Bool → Bool
  | Except.ok b => b
  | Except.error _ => false

/-- _append_blocks_to_page (lines 153-173): run the chunked loop; its
try/except converts a raised exception into a false return. -/
def appendBlocksToPage {α : Type u} (net : NetOracle) (blocks : List α) : Bool :=
  runPublish (appendLoop net 0 (chunksOf100 blocks)).1

/-- The chunks whose requests a publish call actually issues. -/
def sentChunks {α : Type u} (net : NetOracle) (blocks : List α) : List (List α) :=
  (appendLoop net 0 (chunksOf100 blocks)).2

/-- The flat block list the orchestrator builds (lines 42-44): the
blocks of each section, concatenated in order. -/
def docBlocks (doc : List Char) : List NotionBlock :=
  ((splitIntoSections doc).map convertSectionToBlocks).flatten

/-- The try-block of create_blocks_from_markdown (lines 37-47), as a
computation that can in principle carry an exception. Splitting and
converting are pure and total in this embedding, and the publisher
already catches its own transport exceptions, so the body always
returns normally. -/
def orchestratorBody (net : NetOracle) (doc : List Char) : Except String Bool :=
  Except.ok (appendBlocksToPage net (docBlocks doc))

/-- create_blocks_from_markdown (lines 26-51): the catch-all except
converts any error of the body into a false return. The page id only
shapes the request URL and is absorbed into the network oracle. -/
def createBlocksFromMarkdown (net : NetOracle) (doc : List Char) : Bool :=
  match orchestratorBody net doc with
  | Except.ok b => b
  | Except.error _ => false

lemma splitNl_ne_nil : ∀ s : List Char, splitNl s ≠ [] := by
  intro s
  cases s with
  | nil => simp [splitNl]
  | cons c rest =>
    rw [splitNl]
    by_cases hc : c = '\n'
    · simp [hc]
    · rw [if_neg hc]
      cases h : splitNl rest with
      | nil => simp
      | cons l ls => simp

lemma not_nl_mem_of_mem_splitNl : ∀ (s l : List Char), l ∈ splitNl s → '\n' ∉ l := by
  intro s
  induction s with
  | nil =>
    intro l hl
    simp [splitNl] at hl
    subst hl; simp
  | cons c rest ih =>
    intro l hl
    rw [splitNl] at hl
    by_cases hc : c = '\n'
    · rw [if_pos hc] at hl
      rcases List.mem_cons.mp hl with h | h
      · subst h; simp
      · exact ih l h
    · rw [if_neg hc] at hl
      cases h : splitNl rest with
      | nil => exact absurd h (splitNl_ne_nil rest)
      | cons l0 ls =>
        rw [h] at hl
        rcases List.mem_cons.mp hl with h1 | h1
        · subst h1
          intro hmem
          rcases List.mem_cons.mp hmem with h2 | h2
          · exact hc h2.symm
          · exact ih l0 (by rw [h]; exact List.mem_cons_self l0 ls) h2
        · exact ih l (by rw [h]; exact List.mem_cons_of_mem l0 h1)

lemma splitNl_of_not_nl_mem : ∀ l : List Char, '\n' ∉ l → splitNl l = [l] := by
  intro l
  induction l with
  | nil => intro _; rfl
  | cons c rest ih =>
    intro h
    have hc : c ≠ '\n' := by intro e; exact h (by simp [e])
    have hrest : '\n' ∉ rest := fun hm => h (List.mem_cons_of_mem c hm)
    rw [splitNl, if_neg hc, ih hrest]

lemma splitNl_append_nl : ∀ (l r : List Char), '\n' ∉ l →
    splitNl (l ++ '\n' :: r) = l :: splitNl r := by
  intro l
  induction l with
  | nil => intro r _; simp [splitNl]
  | cons c rest ih =>
    intro r h
    have hc : c ≠ '\n' := by intro e; exact h (by simp [e])
    have hrest : '\n' ∉ rest := fun hm => h (List.mem_cons_of_mem c hm)
    rw [List.cons_append, splitNl, if_neg hc, ih r hrest]

lemma joinNl_cons_cons : ∀ (x y : List Char) (ls : List (List Char)),
    joinNl (x :: y :: ls) = x ++ '\n' :: joinNl (y :: ls) := by
  intro x y ls
  rw [joinNl]
  simp

lemma joinNl_splitNl : ∀ s : List Char, joinNl (splitNl s) = s := by
  intro s
  induction s with
  | nil => rfl
  | cons c rest ih =>
    rw [splitNl]
    by_cases hc : c = '\n'
    · rw [if_pos hc]
      cases h : splitNl rest with
      | nil => exact absurd h (splitNl_ne_nil rest)
      | cons l ls =>
        rw [h] at ih
        rw [joinNl_cons_cons, List.nil_append, ih, hc]
    · rw [if_neg hc]
      cases h : splitNl rest with
      | nil => exact absurd h (splitNl_ne_nil rest)
      | cons l ls =>
        rw [h] at ih
        cases ls with
        | nil =>
          have hil : joinNl [l] = l := rfl
          rw [hil] at ih
          show joinNl [c :: l] = c :: rest
          have : joinNl [c :: l] = c :: l := rfl
          rw [this, ih]
        | cons l2 ls2 =>
          rw [joinNl_cons_cons] at ih
          show joinNl ((c :: l) :: l2 :: ls2) = c :: rest
          rw [joinNl_cons_cons, List.cons_append, ih]

lemma splitNl_joinNl : ∀ ls : List (List Char), ls ≠ [] → (∀ l ∈ ls, '\n' ∉ l) →
    splitNl (joinNl ls) = ls := by
  intro ls
  induction ls with
  | nil => intro h _; exact absurd rfl h
  | cons l rest ih =>
    intro _ hfree
    cases rest with
    | nil =>
      show splitNl (joinNl [l]) = [l]
      have hil : joinNl [l] = l := rfl
      rw [hil]
      exact splitNl_of_not_nl_mem l (hfree l (List.mem_cons_self l []))
    | cons l2 rest2 =>
      rw [joinNl_cons_cons, splitNl_append_nl l _ (hfree l (List.mem_cons_self l _))]
      rw [ih (by simp) (fun x hx => hfree x (List.mem_cons_of_mem l hx))]

lemma joinNl_append : ∀ (xs ys : List (List Char)), xs ≠ [] → ys ≠ [] →
    joinNl (xs ++ ys) = joinNl xs ++ '\n' :: joinNl ys := by
  intro xs
  induction xs with
  | nil => intro ys h _; exact absurd rfl h
  | cons x rest ih =>
    intro ys _ hys
    cases rest with
    | nil =>
      cases ys with
      | nil => exact absurd rfl hys
      | cons y ys2 =>
        rw [List.singleton_append, joinNl_cons_cons]
        rfl
    | cons x2 rest2 =>
      rw [List.cons_append, List.cons_append, joinNl_cons_cons,
        ← List.cons_append x2 rest2 ys, ih ys (by simp) hys, joinNl_cons_cons,
        List.append_assoc]
      rfl

lemma sectionsLoop_flatten : ∀ (lines cur : List (List Char)),
    (∀ l ∈ lines, '\n' ∉ l) → (∀ l ∈ cur, '\n' ∉ l) →
    ((splitIntoSectionsLoop lines cur).map splitNl).flatten = cur ++ lines := by
  intro lines
  induction lines with
  | nil =>
    intro cur _ hcur
    rw [splitIntoSectionsLoop]
    cases cur with
    | nil => simp
    | cons c cs =>
      rw [if_neg (by simp)]
      simp only [List.map_cons, List.map_nil, List.flatten_cons, List.flatten_nil,
        List.append_nil]
      rw [splitNl_joinNl (c :: cs) (by simp) hcur]
  | cons line rest ih =>
    intro cur hlines hcur
    have hline : '\n' ∉ line := hlines line (List.mem_cons_self _ _)
    have hrest : ∀ l ∈ rest, '\n' ∉ l := fun l hl => hlines l (List.mem_cons_of_mem _ hl)
    rw [splitIntoSectionsLoop]
    by_cases hcond : (pyStartsWith (pyStr "#") line && !cur.isEmpty) = true
    · rw [if_pos hcond]
      have hcurne : cur ≠ [] := by
        have h2 := hcond
        simp only [Bool.and_eq_true, Bool.not_eq_true', List.isEmpty_eq_false] at h2
        exact h2.2
      simp only [List.map_cons, List.flatten_cons]
      rw [splitNl_joinNl cur hcurne hcur]
      rw [ih [line] hrest (by intro l hl; simp at hl; subst hl; exact hline)]
      simp
    · rw [if_neg hcond]
      rw [ih (cur ++ [line]) hrest (by
        intro l hl
        rcases List.mem_append.mp hl with h | h
        · exact hcur l h
        · simp at h; subst h; exact hline)]
      simp

lemma sectionsLoop_ne_nil : ∀ (lines cur : List (List Char)), cur ≠ [] →
    splitIntoSectionsLoop lines cur ≠ [] := by
  intro lines
  induction lines with
  | nil =>
    intro cur h
    rw [splitIntoSectionsLoop, if_neg (by simp [h])]
    simp
  | cons line rest ih =>
    intro cur h
    rw [splitIntoSectionsLoop]
    by_cases hcond : (pyStartsWith (pyStr "#") line && !cur.isEmpty) = true
    · rw [if_pos hcond]; simp
    · rw [if_neg hcond]; exact ih (cur ++ [line]) (by simp)

lemma sectionsLoop_joinNl : ∀ (lines cur : List (List Char)),
    joinNl (splitIntoSectionsLoop lines cur) = joinNl (cur ++ lines) := by
  intro lines
  induction lines with
  | nil =>
    intro cur
    rw [splitIntoSectionsLoop]
    cases cur with
    | nil => simp [joinNl]
    | cons c cs =>
      rw [if_neg (by simp)]
      simp [joinNl]
  | cons line rest ih =>
    intro cur
    rw [splitIntoSectionsLoop]
    by_cases hcond : (pyStartsWith (pyStr "#") line && !cur.isEmpty) = true
    · rw [if_pos hcond]
      have hcurne : cur ≠ [] := by
        have h2 := hcond
        simp only [Bool.and_eq_true, Bool.not_eq_true', List.isEmpty_eq_false] at h2
        exact h2.2
      have h1 : splitIntoSectionsLoop rest [line] ≠ [] :=
        sectionsLoop_ne_nil rest [line] (by simp)
      obtain ⟨s, ss, hss⟩ : ∃ s ss, splitIntoSectionsLoop rest [line] = s :: ss := by
        cases hx : splitIntoSectionsLoop rest [line] with
        | nil => exact absurd hx h1
        | cons a b => exact ⟨a, b, rfl⟩
      rw [hss, joinNl_cons_cons, ← hss, ih [line], List.singleton_append,
        ← joinNl_append cur (line :: rest) hcurne (by simp)]
    · rw [if_neg hcond]
      rw [ih (cur ++ [line]), List.append_assoc, List.singleton_append]

lemma sectionsLoop_head : ∀ (lines cur : List (List Char)), cur ≠ [] →
    (∀ l ∈ lines, '\n' ∉ l) → (∀ l ∈ cur, '\n' ∉ l) →
    ∃ s ss t, splitIntoSectionsLoop lines cur = s :: ss ∧ splitNl s = cur ++ t := by
  intro lines
  induction lines with
  | nil =>
    intro cur h _ hcur
    rw [splitIntoSectionsLoop, if_neg (by simp [h])]
    exact ⟨joinNl cur, [], [], rfl, by rw [splitNl_joinNl cur h hcur]; simp⟩
  | cons line rest ih =>
    intro cur h hlines hcur
    have hline : '\n' ∉ line := hlines line (List.mem_cons_self _ _)
    have hrest : ∀ l ∈ rest, '\n' ∉ l := fun l hl => hlines l (List.mem_cons_of_mem _ hl)
    rw [splitIntoSectionsLoop]
    by_cases hcond : (pyStartsWith (pyStr "#") line && !cur.isEmpty) = true
    · rw [if_pos hcond]
      exact ⟨joinNl cur, _, [], rfl, by rw [splitNl_joinNl cur h hcur]; simp⟩
    · rw [if_neg hcond]
      obtain ⟨s, ss, t, h1, h2⟩ := ih (cur ++ [line]) (by simp) hrest (by
        intro l hl
        rcases List.mem_append.mp hl with hx | hx
        · exact hcur l hx
        · simp at hx; subst hx; exact hline)
      exact ⟨s, ss, [line] ++ t, h1, by rw [h2, List.append_assoc]⟩

lemma sectionsLoop_no_header : ∀ (lines cur : List (List Char)),
    (∀ l ∈ lines, pyStartsWith (pyStr "#") l = false) →
    splitIntoSectionsLoop lines cur =
      if (cur ++ lines).isEmpty then [] else [joinNl (cur ++ lines)] := by
  intro lines
  induction lines with
  | nil =>
    intro cur _
    rw [splitIntoSectionsLoop]
    simp
  | cons line rest ih =>
    intro cur hh
    have hline := hh line (List.mem_cons_self _ _)
    rw [splitIntoSectionsLoop, if_neg (by simp [hline])]
    rw [ih (cur ++ [line]) (fun l hl => hh l (List.mem_cons_of_mem _ hl))]
    simp

lemma convertLines_append : ∀ (a b : List (List Char)),
    convertLines (a ++ b) = convertLines a ++ convertLines b := by
  intro a b
  induction a with
  | nil => rfl
  | cons l rest ih =>
    rw [List.cons_append, convertLines, convertLines]
    by_cases h : pyStrip l = []
    · rw [if_pos h, if_pos h, ih]
    · rw [if_neg h, if_neg h, ih, List.cons_append]

lemma convertLines_eq_filter_map : ∀ ls : List (List Char),
    convertLines ls = (ls.filter fun l => !(pyStrip l).isEmpty).map buildBlockForLine := by
  intro ls
  induction ls with
  | nil => rfl
  | cons l rest ih =>
    rw [convertLines]
    by_cases h : pyStrip l = []
    · rw [if_pos h, ih]
      simp [List.filter_cons, h]
    · rw [if_neg h, ih]
      simp [List.filter_cons, h]

lemma chunksGo_succ {α : Type u} : ∀ (fuel : Nat) (l : List α), l.length ≤ fuel →
    chunksGo (fuel + 1) l = chunksGo fuel l := by
  intro fuel
  induction fuel with
  | zero =>
    intro l h
    have : l = [] := List.eq_nil_of_length_eq_zero (Nat.le_zero.mp h)
    subst this
    rfl
  | succ f ih =>
    intro l h
    cases l with
    | nil => rfl
    | cons a rest =>
      rw [chunksGo, chunksGo]
      congr 1
      apply ih
      simp only [List.length_drop, List.length_cons]
      simp only [List.length_cons] at h
      omega

lemma chunksGo_eq_chunksOf100 {α : Type u} : ∀ (k fuel : Nat) (l : List α),
    fuel = l.length + k → chunksGo fuel l = chunksOf100 l := by
  intro k
  induction k with
  | zero =>
    intro fuel l h
    simp only [Nat.add_zero] at h
    rw [h, chunksOf100]
  | succ k ih =>
    intro fuel l h
    rw [h, show l.length + (k + 1) = (l.length + k) + 1 from by omega,
      chunksGo_succ (l.length + k) l (by omega)]
    exact ih (l.length + k) l rfl

lemma chunksOf100_cons_eq {α : Type u} (a : α) (rest : List α) :
    chunksOf100 (a :: rest) = (a :: rest).take 100 :: chunksOf100 ((a :: rest).drop 100) := by
  show chunksGo (a :: rest).length (a :: rest) = _
  rw [List.length_cons, chunksGo]
  congr 1
  apply chunksGo_eq_chunksOf100 (rest.length - ((a :: rest).drop 100).length)
  simp only [List.length_drop, List.length_cons]
  omega

lemma chunksOf100_ne_nil_eq {α : Type u} (l : List α) (h : l ≠ []) :
    chunksOf100 l = l.take 100 :: chunksOf100 (l.drop 100) := by
  cases l with
  | nil => exact absurd rfl h
  | cons a rest => exact chunksOf100_cons_eq a rest

lemma chunksOf100_flatten_fuel {α : Type u} : ∀ (n : Nat) (l : List α), l.length ≤ n →
    (chunksOf100 l).flatten = l := by
  intro n
  induction n with
  | zero =>
    intro l h
    have : l = [] := List.eq_nil_of_length_eq_zero (Nat.le_zero.mp h)
    subst this
    rfl
  | succ n ih =>
    intro l h
    cases l with
    | nil => rfl
    | cons a rest =>
      rw [chunksOf100_cons_eq, List.flatten_cons]
      rw [ih ((a :: rest).drop 100) (by
        simp only [List.length_drop, List.length_cons]
        simp only [List.length_cons] at h
        omega)]
      exact List.take_append_drop 100 (a :: rest)

lemma chunksOf100_flatten {α : Type u} (l : List α) : (chunksOf100 l).flatten = l :=
  chunksOf100_flatten_fuel l.length l (Nat.le_refl _)

lemma chunksOf100_length_le_fuel {α : Type u} : ∀ (n : Nat) (l : List α), l.length ≤ n →
    ∀ c ∈ chunksOf100 l, c.length ≤ 100 := by
  intro n
  induction n with
  | zero =>
    intro l h c hc
    have : l = [] := List.eq_nil_of_length_eq_zero (Nat.le_zero.mp h)
    subst this
    simp [chunksOf100, chunksGo] at hc
  | succ n ih =>
    intro l h c hc
    cases l with
    | nil => simp [chunksOf100, chunksGo] at hc
    | cons a rest =>
      rw [chunksOf100_cons_eq] at hc
      rcases List.mem_cons.mp hc with h1 | h1
      · subst h1
        simp only [List.length_take]
        omega
      · exact ih ((a :: rest).drop 100) (by
          simp only [List.length_drop, List.length_cons]
          simp only [List.length_cons] at h
          omega) c h1

lemma chunksOf100_length_le {α : Type u} (l : List α) :
    ∀ c ∈ chunksOf100 l, c.length ≤ 100 :=
  chunksOf100_length_le_fuel l.length l (Nat.le_refl _)

lemma appendLoop_ok_true_iff {α : Type u} (net : NetOracle) :
    ∀ (cs : List (List α)) (i : Nat),
      ((appendLoop net i cs).1 = Except.ok true ↔
        ∀ j, j < cs.length → net (i + j) = NetResponse.status 200) := by
  intro cs
  induction cs with
  | nil =>
    intro i
    simp [appendLoop]
  | cons c rest ih =>
    intro i
    rcases hn : net i with code | msg
    · by_cases hc : code = 200
      · subst hc
        simp only [appendLoop, hn]
        rw [if_neg (show ¬((200 : Nat) ≠ 200) from by omega)]
        rw [ih (i + 1)]
        constructor
        · intro h j hj
          cases j with
          | zero => simpa using hn
          | succ j0 =>
            have hj0 : j0 < rest.length := by
              simp only [List.length_cons] at hj
              omega
            have := h j0 hj0
            rw [show i + (j0 + 1) = i + 1 + j0 from by omega]
            exact this
        · intro h j hj
          have := h (j + 1) (by simp only [List.length_cons]; omega)
          rw [show i + 1 + j = i + (j + 1) from by omega]
          exact this
      · simp only [appendLoop, hn]
        rw [if_pos hc]
        constructor
        · intro h
          exact absurd (Except.ok.inj h) (by simp)
        · intro h
          have := h 0 (by simp)
          rw [Nat.add_zero, hn] at this
          exact absurd (by injection this) hc
    · simp only [appendLoop, hn]
      constructor
      · intro h
        exact absurd h (by simp)
      · intro h
        have := h 0 (by simp)
        rw [Nat.add_zero, hn] at this
        exact absurd this (by simp)

lemma appendLoop_sent_take {α : Type u} (net : NetOracle) :
    ∀ (cs : List (List α)) (i : Nat), ∃ k, (appendLoop net i cs).2 = cs.take k := by
  intro cs
  induction cs with
  | nil => intro i; exact ⟨0, rfl⟩
  | cons c rest ih =>
    intro i
    rcases hn : net i with code | msg
    · by_cases hc : code = 200
      · subst hc
        obtain ⟨k, hk⟩ := ih (i + 1)
        refine ⟨k + 1, ?_⟩
        simp only [appendLoop, hn]
        rw [if_neg (show ¬((200 : Nat) ≠ 200) from by omega)]
        rw [hk, List.take_succ_cons]
      · refine ⟨1, ?_⟩
        simp only [appendLoop, hn]
        rw [if_pos hc]
        simp
    · refine ⟨1, ?_⟩
      simp only [appendLoop, hn]
      simp

lemma appendBlocksToPage_eq_true_iff {α : Type u} (net : NetOracle) (blocks : List α) :
    appendBlocksToPage net blocks = true ↔
      (appendLoop net 0 (chunksOf100 blocks)).1 = Except.ok true := by
  rw [appendBlocksToPage]
  cases h : (appendLoop net 0 (chunksOf100 (α := α) blocks)).1 with
  | ok b => cases b <;> simp [runPublish]
  | error e => simp [runPublish]

lemma pyStartsWith_iff : ∀ (p l : List Char), pyStartsWith p l = true ↔ ∃ t, l = p ++ t := by
  intro p
  induction p with
  | nil => intro l; simp [pyStartsWith]
  | cons a ps ih =>
    intro l
    cases l with
    | nil => simp [pyStartsWith]
    | cons c cs =>
      rw [pyStartsWith]
      simp only [Bool.and_eq_true, beq_iff_eq]
      rw [ih cs]
      constructor
      · rintro ⟨rfl, t, rfl⟩
        exact ⟨t, rfl⟩
      · rintro ⟨t, h⟩
        rw [List.cons_append] at h
        injection h with h1 h2
        exact ⟨h1.symm, t, h2⟩

lemma classify_h3 (t : List Char) : classify (pyStr "### " ++ t) = (BlockKind.heading3, t) := rfl

lemma classify_h2 (t : List Char) : classify (pyStr "## " ++ t) = (BlockKind.heading2, t) := rfl

lemma classify_h1 (t : List Char) : classify (pyStr "# " ++ t) = (BlockKind.heading1, t) := rfl

lemma classify_bullet (t : List Char) : classify (pyStr "- " ++ t) = (BlockKind.bulletItem, t) := rfl

lemma classify_numbered (t : List Char) : classify (pyStr "1. " ++ t) = (BlockKind.numberedItem, t) := rfl

lemma classify_fallback (line : List Char)
    (h1 : pyStartsWith (pyStr "### ") line = false)
    (h2 : pyStartsWith (pyStr "## ") line = false)
    (h3 : pyStartsWith (pyStr "# ") line = false)
    (h4 : pyStartsWith (pyStr "- ") line = false)
    (h5 : pyStartsWith (pyStr "1. ") line = false) :
    classify line = (BlockKind.paragraph, line) := by
  rw [classify]
  rw [if_neg (by rw [h3]; simp), if_neg (by rw [h2]; simp), if_neg (by rw [h1]; simp),
    if_neg (by rw [h4]; simp), if_neg (by rw [h5]; simp)]

lemma mapConvert_flatten : ∀ ss : List (List Char),
    (ss.map convertSectionToBlocks).flatten = convertLines ((ss.map splitNl).flatten) := by
  intro ss
  induction ss with
  | nil => rfl
  | cons s rest ih =>
    simp only [List.map_cons, List.flatten_cons]
    rw [convertLines_append, ← ih]
    rfl

lemma docBlocks_eq_convertLines (doc : List Char) :
    docBlocks doc = convertLines (splitNl doc) := by
  rw [docBlocks, mapConvert_flatten]
  congr 1
  show ((splitIntoSectionsLoop (splitNl doc) []).map splitNl).flatten = splitNl doc
  rw [sectionsLoop_flatten (splitNl doc) []
    (fun l hl => not_nl_mem_of_mem_splitNl doc l hl) (by simp)]
  simp

lemma appendLoop_second_fails {α : Type u} (net : NetOracle) (c0 c1 c2 : List α)
    (h0 : net 0 = NetResponse.status 200) (h1 : net 1 ≠ NetResponse.status 200) :
    (appendLoop net 0 [c0, c1, c2]).2 = [c0, c1]
    ∧ runPublish (appendLoop net 0 [c0, c1, c2]).1 = false := by
  rcases hn1 : net 1 with code | msg
  · have hcode : code ≠ 200 := fun e => h1 (by rw [hn1, e])
    constructor
    · simp only [appendLoop, h0, hn1]
      rw [if_neg (show ¬((200 : Nat) ≠ 200) from by omega), if_pos hcode]
    · simp only [appendLoop, h0, hn1]
      rw [if_neg (show ¬((200 : Nat) ≠ 200) from by omega), if_pos hcode]
      rfl
  · constructor
    · simp only [appendLoop, h0, hn1]
      rw [if_neg (show ¬((200 : Nat) ≠ 200) from by omega)]
    · simp only [appendLoop, h0, hn1]
      rw [if_neg (show ¬((200 : Nat) ≠ 200) from by omega)]
      rfl

/-- Claim C1: classification of a non-blank line follows the six prefix
rules with first-match precedence: a line starting with hash-hash-hash-space
is a Heading3 with the remainder after 4 characters, hash-hash-space a
Heading2 with the remainder after 3, hash-space a Heading1 with the
remainder after 2, dash-space a BulletItem with the remainder after 2,
the literal one-dot-space a NumberedItem with the remainder after 3, and
any other line (including the numbering 2. and the four-hash line without
a space) a Paragraph carrying the full line. -/
theorem c1_classify_rules :
    (∀ line : List Char,
      (pyStartsWith (pyStr "### ") line = true →
        classify line = (BlockKind.heading3, line.drop 4))
      ∧ (pyStartsWith (pyStr "## ") line = true →
        classify line = (BlockKind.heading2, line.drop 3))
      ∧ (pyStartsWith (pyStr "# ") line = true →
        classify line = (BlockKind.heading1, line.drop 2))
      ∧ (pyStartsWith (pyStr "- ") line = true →
        classify line = (BlockKind.bulletItem, line.drop 2))
      ∧ (pyStartsWith (pyStr "1. ") line = true →
        classify line = (BlockKind.numberedItem, line.drop 3))
      ∧ (pyStartsWith (pyStr "### ") line = false →
        pyStartsWith (pyStr "## ") line = false →
        pyStartsWith (pyStr "# ") line = false →
        pyStartsWith (pyStr "- ") line = false →
        pyStartsWith (pyStr "1. ") line = false →
        classify line = (BlockKind.paragraph, line)))
    ∧ classify (pyStr "### Title") = (BlockKind.heading3, pyStr "Title")
    ∧ classify (pyStr "## Title") = (BlockKind.heading2, pyStr "Title")
    ∧ classify (pyStr "# Title") = (BlockKind.heading1, pyStr "Title")
    ∧ classify (pyStr "- item") = (BlockKind.bulletItem, pyStr "item")
    ∧ classify (pyStr "1. first") = (BlockKind.numberedItem, pyStr "first")
    ∧ classify (pyStr "2. second") = (BlockKind.paragraph, pyStr "2. second")
    ∧ classify (pyStr "3. x") = (BlockKind.paragraph, pyStr "3. x")
    ∧ classify (pyStr "####Text") = (BlockKind.paragraph, pyStr "####Text") := by
  refine ⟨fun line => ⟨?_, ?_, ?_, ?_, ?_, ?_⟩,
    by decide, by decide, by decide, by decide, by decide, by decide, by decide, by decide⟩
  · intro h
    obtain ⟨t, rfl⟩ := (pyStartsWith_iff _ _).mp h
    exact classify_h3 t
  · intro h
    obtain ⟨t, rfl⟩ := (pyStartsWith_iff _ _).mp h
    exact classify_h2 t
  · intro h
    obtain ⟨t, rfl⟩ := (pyStartsWith_iff _ _).mp h
    exact classify_h1 t
  · intro h
    obtain ⟨t, rfl⟩ := (pyStartsWith_iff _ _).mp h
    exact classify_bullet t
  · intro h
    obtain ⟨t, rfl⟩ := (pyStartsWith_iff _ _).mp h
    exact classify_numbered t
  · intro h1 h2 h3 h4 h5
    exact classify_fallback line h1 h2 h3 h4 h5

/-- Witness for C1 at a concrete heading line. -/
theorem c1_classify_rules_witness :
    classify (pyStr "### Hello") = (BlockKind.heading3, (pyStr "### Hello").drop 4) :=
  (c1_classify_rules.1 (pyStr "### Hello")).1 (by decide)

/-- Claim C2: the publisher partitions the blocks into consecutive
order-preserving chunks of at most 100, issues the requests
sequentially (the sent chunks are always a leading run of the chunk
list), succeeds exactly when every chunk gets a 200 status, and for 250
blocks produces chunks of sizes 100, 100 and 50, where a failure of the
second request stops the third from being sent and makes the publish
return false. -/
theorem c2_publish_chunks {α : Type} (net : NetOracle) (blocks : List α) :
    (chunksOf100 blocks).flatten = blocks
    ∧ (∀ c ∈ chunksOf100 blocks, c.length ≤ 100)
    ∧ (appendBlocksToPage net blocks = true ↔
        ∀ i, i < (chunksOf100 blocks).length → net i = NetResponse.status 200)
    ∧ (∃ k, sentChunks net blocks = (chunksOf100 blocks).take k)
    ∧ (blocks.length = 250 →
        (chunksOf100 blocks).map List.length = [100, 100, 50]
        ∧ (net 0 = NetResponse.status 200 → net 1 ≠ NetResponse.status 200 →
            sentChunks net blocks = (chunksOf100 blocks).take 2
            ∧ appendBlocksToPage net blocks = false)) := by
  refine ⟨chunksOf100_flatten blocks, chunksOf100_length_le blocks, ?_,
    appendLoop_sent_take net (chunksOf100 blocks) 0, ?_⟩
  · rw [appendBlocksToPage_eq_true_iff, appendLoop_ok_true_iff net (chunksOf100 blocks) 0]
    constructor
    · intro h i hi
      have := h i hi
      rwa [Nat.zero_add] at this
    · intro h j hj
      rw [Nat.zero_add]
      exact h j hj
  · intro h250
    have hne : blocks ≠ [] := by
      intro h
      rw [h] at h250
      simp at h250
    have e1 := chunksOf100_ne_nil_eq blocks hne
    have hld1 : (blocks.drop 100).length = 150 := by simp [h250]
    have hd1ne : blocks.drop 100 ≠ [] := by
      intro h
      rw [h] at hld1
      simp at hld1
    have e2 := chunksOf100_ne_nil_eq (blocks.drop 100) hd1ne
    have hld2 : ((blocks.drop 100).drop 100).length = 50 := by
      simp only [List.length_drop, hld1]
    have hd2ne : (blocks.drop 100).drop 100 ≠ [] := by
      intro h
      rw [h] at hld2
      simp at hld2
    have e3 := chunksOf100_ne_nil_eq ((blocks.drop 100).drop 100) hd2ne
    have hld3 : (((blocks.drop 100).drop 100).drop 100).length = 0 := by
      simp only [List.length_drop, hld2]
    have hd3 : ((blocks.drop 100).drop 100).drop 100 = [] :=
      List.eq_nil_of_length_eq_zero hld3
    have echunks : chunksOf100 blocks =
        [blocks.take 100, (blocks.drop 100).take 100,
          ((blocks.drop 100).drop 100).take 100] := by
      rw [e1, e2, e3, hd3]
      rfl
    constructor
    · rw [echunks]
      simp only [List.map_cons, List.map_nil, List.length_take, h250, hld1, hld2]
      decide
    · intro h0 h1
      obtain ⟨hsent, hres⟩ := appendLoop_second_fails net
        (blocks.take 100) ((blocks.drop 100).take 100)
        (((blocks.drop 100).drop 100).take 100) h0 h1
      constructor
      · rw [sentChunks, echunks, hsent]
        simp
      · rw [appendBlocksToPage, echunks]
        exact hres

/-- Witness for C2: 250 blocks with the second request failing. -/
theorem c2_publish_chunks_witness :
    sentChunks (fun i => if i = 0 then NetResponse.status 200 else NetResponse.raised "x")
        (List.replicate 250 (0 : Nat))
      = (chunksOf100 (List.replicate 250 (0 : Nat))).take 2
    ∧ appendBlocksToPage
        (fun i => if i = 0 then NetResponse.status 200 else NetResponse.raised "x")
        (List.replicate 250 (0 : Nat)) = false :=
  ((c2_publish_chunks
      (fun i => if i = 0 then NetResponse.status 200 else NetResponse.raised "x")
      (List.replicate 250 (0 : Nat))).2.2.2.2 (by simp)).2 (by simp) (by simp)

/-- Claim C3: the section splitter partitions the lines of a non-empty
document exactly: the lines of all sections concatenated in order are
the lines of the document, and joining the sections back with newlines
reproduces the document, so there are no gaps, overlaps, reorderings or
lines split across sections. -/
theorem c3_splitter_lossless (doc : List Char) (hne : doc ≠ []) :
    ((splitIntoSections doc).map splitNl).flatten = splitNl doc
    ∧ joinNl (splitIntoSections doc) = doc := by
  constructor
  · rw [splitIntoSections, sectionsLoop_flatten (splitNl doc) []
      (fun l hl => not_nl_mem_of_mem_splitNl doc l hl) (by simp)]
    simp
  · rw [splitIntoSections, sectionsLoop_joinNl, List.nil_append, joinNl_splitNl]

/-- Witness for C3 at a concrete two-section document. -/
theorem c3_splitter_lossless_witness :
    ((splitIntoSections (pyStr "# a\nx")).map splitNl).flatten = splitNl (pyStr "# a\nx")
    ∧ joinNl (splitIntoSections (pyStr "# a\nx")) = pyStr "# a\nx" :=
  c3_splitter_lossless (pyStr "# a\nx") (by decide)

/-- Claim C4: the block sequence the orchestrator builds for a document
is exactly the map of the block builder over the non-blank lines of the
document, in document order: blank lines yield no block, every non-blank
line yields exactly one block, with no reordering or merging. -/
theorem c4_blocks_per_line (doc : List Char) :
    docBlocks doc =
      ((splitNl doc).filter fun l => !(pyStrip l).isEmpty).map buildBlockForLine := by
  rw [docBlocks_eq_convertLines, convertLines_eq_filter_map]

/-- Claim C5: the orchestrator never raises: its body always returns a
boolean to the caller, and a transport exception raised while publishing
surfaces as a false return value. -/
theorem c5_orchestrator_total (net : NetOracle) (doc : List Char) :
    (∃ b : Bool, orchestratorBody net doc = Except.ok b
      ∧ createBlocksFromMarkdown net doc = b)
    ∧ (∀ msg : String,
        (appendLoop net 0 (chunksOf100 (docBlocks doc))).1 = Except.error msg →
        createBlocksFromMarkdown net doc = false) := by
  constructor
  · exact ⟨appendBlocksToPage net (docBlocks doc), rfl, rfl⟩
  · intro msg hmsg
    have hcb : createBlocksFromMarkdown net doc = appendBlocksToPage net (docBlocks doc) := rfl
    rw [hcb, appendBlocksToPage, hmsg]
    rfl

/-- Witness for C5 at a document of one line against a network that
raises on every request. -/
theorem c5_orchestrator_total_witness :
    createBlocksFromMarkdown (fun _ => NetResponse.raised "boom") (pyStr "x") = false :=
  (c5_orchestrator_total (fun _ => NetResponse.raised "boom") (pyStr "x")).2 "boom" rfl

/-- Claim C6 counterexample: the empty input does not produce zero
sections, refuting the claim that it does. -/
theorem c6_zero_sections_counterexample : splitIntoSections (pyStr "") ≠ [] := by
  decide

/-- Claim C6 as amended: an empty input produces exactly one section,
the empty string; if the very first line is a header, no empty section
is emitted before it and the header is the first line of the first
section; and a document with no header line anywhere yields exactly one
section equal to the whole document. -/
theorem c6_splitter_edges_amended :
    splitIntoSections (pyStr "") = [[]]
    ∧ (∀ (doc l0 : List Char) (rest : List (List Char)),
        splitNl doc = l0 :: rest → pyStartsWith (pyStr "#") l0 = true →
        ∃ s ss t, splitIntoSections doc = s :: ss ∧ splitNl s = l0 :: t)
    ∧ (∀ doc : List Char, (∀ l ∈ splitNl doc, pyStartsWith (pyStr "#") l = false) →
        splitIntoSections doc = [doc]) := by
  refine ⟨by decide, ?_, ?_⟩
  · intro doc l0 rest hsplit hhead
    rw [splitIntoSections, hsplit, splitIntoSectionsLoop, if_neg (by simp), List.nil_append]
    obtain ⟨s, ss, t, hA, hB⟩ := sectionsLoop_head rest [l0] (by simp)
      (fun l hl => not_nl_mem_of_mem_splitNl doc l
        (by rw [hsplit]; exact List.mem_cons_of_mem _ hl))
      (by
        intro l hl
        have hl0 : l = l0 := by simpa using hl
        rw [hl0]
        exact not_nl_mem_of_mem_splitNl doc l0
          (by rw [hsplit]; exact List.mem_cons_self _ _))
    exact ⟨s, ss, t, hA, by rw [hB]; rfl⟩
  · intro doc hnh
    rw [splitIntoSections, sectionsLoop_no_header (splitNl doc) [] hnh, List.nil_append,
      if_neg (by simpa using splitNl_ne_nil doc), joinNl_splitNl]

/-- Witness for the amended C6 at a header-first document and at a
document without headers. -/
theorem c6_splitter_edges_witness :
    (∃ s ss t, splitIntoSections (pyStr "# A\nB") = s :: ss ∧ splitNl s = pyStr "# A" :: t)
    ∧ splitIntoSections (pyStr "a\nb") = [pyStr "a\nb"] :=
  ⟨c6_splitter_edges_amended.2.1 (pyStr "# A\nB") (pyStr "# A") [pyStr "B"]
      (by decide) (by decide),
    c6_splitter_edges_amended.2.2 (pyStr "a\nb") (by decide)⟩

/-- Claim C7: the block built for any classified line is exactly the
prescribed wire object: it carries object block, the type tag matching
the classified kind, and a rich_text list holding a single text item
whose content is the prefix-stripped and whitespace-trimmed line. -/
theorem c7_wire_objects (line : List Char) :
    (buildBlockForLine line).object = "block"
    ∧ (buildBlockForLine line).type = tagOfKind (classify line).1
    ∧ (buildBlockForLine line).richText
        = [{ type := "text", content := pyStrip (classify line).2 }] := by
  rw [buildBlockForLine]
  rcases h : classify line with ⟨k, c⟩
  simp only [h]
  cases k <;>
    simp [mkBlockOfKind, tagOfKind, createHeading1Block, createHeading2Block,
      createHeading3Block, createBulletListBlock, createNumberedListBlock,
      createParagraphBlock]

/-- Claim C8: section splitting has no effect on the block sequence:
converting each section and concatenating gives the same blocks as
converting the whole document directly. -/
theorem c8_sections_no_effect (doc : List Char) :
    ((splitIntoSections doc).map convertSectionToBlocks).flatten
      = convertSectionToBlocks doc := by
  have h := docBlocks_eq_convertLines doc
  rw [docBlocks] at h
  rw [h]
  rfl

/-- Claim C9: publishing zero blocks issues zero requests and returns
true, and the orchestrator returns true on an entirely blank document
without contacting the network. -/
theorem c9_empty_publish (net : NetOracle) (doc : List Char) :
    appendBlocksToPage net ([] : List NotionBlock) = true
    ∧ sentChunks net ([] : List NotionBlock) = []
    ∧ ((∀ l ∈ splitNl doc, pyStrip l = []) →
        createBlocksFromMarkdown net doc = true ∧ sentChunks net (docBlocks doc) = []) := by
  refine ⟨rfl, rfl, ?_⟩
  intro hblank
  have hdb : docBlocks doc = [] := by
    rw [docBlocks_eq_convertLines, convertLines_eq_filter_map]
    have hfilter : (splitNl doc).filter (fun l => !(pyStrip l).isEmpty) = [] := by
      rw [List.filter_eq_nil_iff]
      intro l hl
      simp [hblank l hl]
    rw [hfilter]
    rfl
  refine ⟨?_, ?_⟩
  · have hcb : createBlocksFromMarkdown net doc = appendBlocksToPage net (docBlocks doc) := rfl
    rw [hcb, hdb]
    rfl
  · rw [hdb]
    rfl

/-- Witness for C9 at a document of one blank line against a network
that raises on every request. -/
theorem c9_empty_publish_witness :
    createBlocksFromMarkdown (fun _ => NetResponse.raised "down") (pyStr " ") = true
    ∧ sentChunks (fun _ => NetResponse.raised "down") (docBlocks (pyStr " ")) = [] :=
  (c9_empty_publish (fun _ => NetResponse.raised "down") (pyStr " ")).2.2 (by decide)

/-- Claim C10: the two character dash-space line is not blank, produces
one bullet item block with empty text, and that block is passed on and
sent to the publisher. -/
theorem c10_empty_text_block :
    pyStrip (pyStr "- ") ≠ []
    ∧ convertSectionToBlocks (pyStr "- ") = [createBulletListBlock []]
    ∧ (createBulletListBlock []).richText = [{ type := "text", content := [] }]
    ∧ docBlocks (pyStr "- ") = [createBulletListBlock []]
    ∧ sentChunks (fun _ => NetResponse.status 200) (docBlocks (pyStr "- "))
        = [[createBulletListBlock []]] := by
  refine ⟨by decide, by decide, by decide, by decide, by decide⟩
